import Mathlib

/-!
Shallow embedding of the chat subsystem of the hert backend: the ChatMessage
schema, the REST chat router (history, send, mark-read, edit), and the socket
layer (authentication middleware, presence tracking, conversation rooms,
send-message, disconnect), together with proofs of the specified properties.
-/

namespace HertChat

/-- Embedding of JavaScript String.prototype.trim on the character list of a
string: removes leading and trailing whitespace. -/
def trimChars (l : List Char) : List Char :=
  ((l.dropWhile Char.isWhitespace).reverse.dropWhile Char.isWhitespace).reverse

/-- JavaScript String.prototype.trim, as used by the routes and by the trim
option of the mongoose schema. -/
def jsTrim (s : String) : String := String.mk (trimChars s.data)

/-- Lexicographic strict comparison of character lists by code point: the
comparison performed by the default Array.prototype.sort comparator on
strings. -/
def charsLt : List Char → List Char → Bool
  | [], [] => false
  | [], _ :: _ => true
  | _ :: _, [] => false
  | a :: as, b :: bs =>
    if a.toNat < b.toNat then true
    else if b.toNat < a.toNat then false
    else charsLt as bs

/-- Strict string comparison used by the default sort of JavaScript arrays. -/
def jsLt (a b : String) : Bool := charsLt a.data b.data

/-- User identifiers are opaque strings (stringified ObjectIds). -/
abbrev UserId := String

/-- One ChatMessage document, after models/ChatMessage.js (full schema:
sender, receiver, message, replyTo, delivered, deliveredAt, read, readAt,
edited, createdAt); id stands for the store assigned _id and timestamps are
in milliseconds. -/
structure Msg where
  id : Nat
  sender : UserId
  receiver : UserId
  message : String
  replyTo : Option Nat
  delivered : Bool
  deliveredAt : Option Nat
  read : Bool
  readAt : Option Nat
  edited : Bool
  createdAt : Nat
deriving DecidableEq

/-- The ChatMessage collection: the stored documents plus the next fresh id
(the store assigns ids monotonically). -/
structure ChatStore where
  msgs : List Msg
  nextId : Nat
deriving DecidableEq

/-- A REST error response: the HTTP status plus the error string of the JSON
body, exactly as produced by res.status(s).json(message). -/
structure ApiError where
  status : Nat
  error : String
deriving DecidableEq

/-- Stable insertion into a list kept ascending in createdAt. -/
def insertByCreated (m : Msg) : List Msg → List Msg
  | [] => [m]
  | x :: xs =>
    if m.createdAt < x.createdAt then m :: x :: xs else x :: insertByCreated m xs

/-- The sort on createdAt ascending applied by the conversation query. -/
def sortByCreated (l : List Msg) : List Msg := l.foldr insertByCreated []

/-- The $or filter of the conversation queries in routes/chat.js: all
messages between the two users, in either direction. -/
def pairFilter (a b : UserId) (l : List Msg) : List Msg :=
  l.filter
    (fun m => decide ((m.sender = a ∧ m.receiver = b) ∨ (m.sender = b ∧ m.receiver = a)))

/-- ChatMessage.find with the pair filter, sorted createdAt ascending: the
conversation history between two users. -/
def historyMsgs (l : List Msg) (a b : UserId) : List Msg := sortByCreated (pairFilter a b l)

/-- GET /api/chat/:userId — checks that the other user exists, then returns
the conversation history between the caller and that user. -/
def getConversation (db : ChatStore) (users : List UserId) (userId : UserId)
    (otherId : String) : Except ApiError (List Msg) :=
  if otherId ∈ users then
    Except.ok (historyMsgs db.msgs userId otherId)
  else
    Except.error ⟨404, "User not found"⟩

/-- POST /api/chat — validates that receiverId and message are present (in
JavaScript the empty string is falsy) and that the message is nonempty after
trim, checks the receiver exists, then persists a new ChatMessage built with
read false and edited false; the schema supplies delivered false, deliveredAt
null, readAt null, replyTo null and createdAt now. -/
def postChat (db : ChatStore) (users : List UserId) (senderId : UserId)
    (receiverId : String) (message : String) (now : Nat) :
    Except ApiError (ChatStore × Msg) :=
  if receiverId = "" ∨ message = "" ∨ jsTrim message = "" then
    Except.error ⟨400, "Receiver and message are required"⟩
  else if receiverId ∈ users then
    let m : Msg :=
      { id := db.nextId, sender := senderId, receiver := receiverId,
        message := jsTrim message, replyTo := none, delivered := false,
        deliveredAt := none, read := false, readAt := none, edited := false,
        createdAt := now }
    Except.ok ({ msgs := db.msgs ++ [m], nextId := db.nextId + 1 }, m)
  else
    Except.error ⟨404, "Receiver not found"⟩

/-- The per-document update of PUT /api/chat/read/:senderId — updateMany
matches sender, receiver and read false and sets read true. -/
def markReadOne (senderId userId : UserId) (m : Msg) : Msg :=
  if m.sender = senderId ∧ m.receiver = userId ∧ m.read = false then
    { m with read := true }
  else m

/-- PUT /api/chat/read/:senderId — bulk mark-read of every unread message
from senderId to the caller; always answers success true. -/
def markAllRead (db : ChatStore) (senderId : UserId) (userId : UserId) : ChatStore :=
  { db with msgs := db.msgs.map (markReadOne senderId userId) }

/-- PUT /api/chat/:messageId — rejects an empty (after trim) body with 400,
a missing message with 404, a requester other than the sender with 403, an
age above five minutes with 400, and otherwise saves the message with the
trimmed new body and edited true. -/
def editMessage (db : ChatStore) (userId : UserId) (messageId : Nat)
    (message : String) (now : Nat) : Except ApiError (ChatStore × Msg) :=
  if message = "" ∨ jsTrim message = "" then
    Except.error ⟨400, "Message cannot be empty"⟩
  else
    match db.msgs.find? (fun m => m.id == messageId) with
    | none => Except.error ⟨404, "Message not found"⟩
    | some msg =>
      if msg.sender ≠ userId then
        Except.error ⟨403, "Not authorized"⟩
      else if now - msg.createdAt > 5 * 60 * 1000 then
        Except.error ⟨400, "Cannot edit messages older than 5 minutes"⟩
      else
        let msg2 := { msg with message := jsTrim message, edited := true }
        Except.ok
          ({ db with msgs := db.msgs.map (fun m => if m.id = messageId then msg2 else m) },
           msg2)

/-- The conversation room name of server.js: the pair of user ids sorted by
the default array sort and joined with a dash; the default sort of a two
element array swaps exactly when the second element is strictly smaller. -/
def roomKey (a b : UserId) : String :=
  if jsLt b a then b ++ "-" ++ a else a ++ "-" ++ b

/-- Insertion into a list of strings kept ascending, used to spell the
sorted-pair contract of the specification. -/
def insertLe (x : String) : List String → List String
  | [] => [x]
  | y :: ys => if jsLt y x then y :: insertLe x ys else x :: y :: ys

/-- Insertion sort of a list of strings. -/
def sortStrings (l : List String) : List String := l.foldr insertLe []

/-- Join of a list of strings with the dash separator. -/
def joinDash : List String → String
  | [] => ""
  | [x] => x
  | x :: xs => x ++ "-" ++ joinDash xs

/-- The room-key contract stated by the specification: sort the two ids and
join them with the separator. -/
def specRoomKey (a b : UserId) : String := joinDash (sortStrings [a, b])

/-- Events emitted by the socket layer; the first field of newMessage and
userTyping is the room the emit is scoped to, while userOnline and
userOffline are global broadcasts. -/
inductive Event
  | userOnline (userId : UserId)
  | userOffline (userId : UserId)
  | newMessage (room : String) (m : Msg)
  | userTyping (room : String) (userId : UserId) (isTyping : Bool)
deriving DecidableEq

/-- Observable actions of the send-message handler, in execution order:
the awaited save of the document, then the emit. -/
inductive Action
  | persist (m : Msg)
  | emit (e : Event)
deriving DecidableEq

/-- One connected socket: its connection id, the user id bound by the
authentication middleware, and the rooms it joined. -/
structure Socket where
  sid : Nat
  userId : UserId
  rooms : List String
deriving DecidableEq

/-- Process-wide server state: the message store, the onlineUsers set and
the connected sockets. -/
structure ServerState where
  db : ChatStore
  onlineUsers : List UserId
  sockets : List Socket
deriving DecidableEq

/-- Set.add of the onlineUsers set: a no-op when the element is present. -/
def setAdd (s : List UserId) (u : UserId) : List UserId :=
  if u ∈ s then s else s ++ [u]

/-- Set.delete of the onlineUsers set. -/
def setDelete (s : List UserId) (u : UserId) : List UserId :=
  s.filter (fun v => decide (v ≠ u))

/-- Presence: whether the user id is in the onlineUsers set. -/
def isOnline (st : ServerState) (u : UserId) : Bool :=
  decide (u ∈ st.onlineUsers)

/-- The credential presented in the socket handshake: absent, present but
rejected by jwt.verify, or present and verified to a user id. -/
inductive Credential
  | missing
  | invalid (token : String)
  | valid (token : String) (userId : UserId)
deriving DecidableEq

/-- The two distinguishable authentication failures of the io.use middleware:
"Authentication error: no token" and "Invalid token". -/
inductive AuthError
  | noToken
  | invalidToken
deriving DecidableEq

/-- The io.use middleware: no token fails with noToken, a token rejected by
jwt.verify fails with invalidToken, otherwise the decoded user id is bound
to the socket. -/
def authenticate : Credential → Except AuthError UserId
  | Credential.missing => Except.error AuthError.noToken
  | Credential.invalid _ => Except.error AuthError.invalidToken
  | Credential.valid _ u => Except.ok u

/-- A connection attempt: the middleware runs first; on failure the attempt
terminates with the error and the server state is untouched and nothing is
emitted; on success the connection handler adds the user to onlineUsers,
broadcasts user-online, and the socket joins the room named after its own
user id. -/
def connect (st : ServerState) (cred : Credential) (sid : Nat) :
    ServerState × List Event × Option AuthError :=
  match authenticate cred with
  | Except.error e => (st, [], some e)
  | Except.ok uid =>
      ({ st with
           onlineUsers := setAdd st.onlineUsers uid,
           sockets := st.sockets ++ [{ sid := sid, userId := uid, rooms := [uid] }] },
       [Event.userOnline uid], none)

/-- The join-conversation handler: the calling socket joins the room keyed
by the sorted pair of its own user id and the partner id. -/
def joinConversation (st : ServerState) (sid : Nat) (partnerId : UserId) : ServerState :=
  { st with
      sockets := st.sockets.map (fun s =>
        if s.sid = sid then
          { s with rooms :=
              if roomKey s.userId partnerId ∈ s.rooms then s.rooms
              else s.rooms ++ [roomKey s.userId partnerId] }
        else s) }

/-- The send-message handler: builds the document (the schema trims the
message and defaults delivered false, deliveredAt null, read false, readAt
null, edited false), awaits its save, and only then emits new-message to the
conversation room; a failed save is caught, so nothing is persisted and
nothing is emitted. saveOk models the outcome of the awaited save. -/
def sendMessage (st : ServerState) (senderId receiverId : UserId)
    (message : String) (replyTo : Option Nat) (now : Nat) (saveOk : Bool) :
    ServerState × List Action :=
  let room := roomKey senderId receiverId
  let m : Msg :=
    { id := st.db.nextId, sender := senderId, receiver := receiverId,
      message := jsTrim message, replyTo := replyTo, delivered := false,
      deliveredAt := none, read := false, readAt := none, edited := false,
      createdAt := now }
  if saveOk then
    ({ st with db := { msgs := st.db.msgs ++ [m], nextId := st.db.nextId + 1 } },
     [Action.persist m, Action.emit (Event.newMessage room m)])
  else (st, [])

/-- The disconnect handler plus the transport teardown: the user id of the
closing socket is deleted from onlineUsers, user-offline is broadcast, and
the socket with its room subscriptions is removed. -/
def disconnect (st : ServerState) (sid : Nat) : ServerState × List Event :=
  match st.sockets.find? (fun s => s.sid == sid) with
  | none => (st, [])
  | some s =>
      ({ st with
           sockets := st.sockets.filter (fun t => decide (t.sid ≠ sid)),
           onlineUsers := setDelete st.onlineUsers s.userId },
       [Event.userOffline s.userId])

/-- Modelled from the spec: markDelivered(messageId) of section 4.4 is not
implemented anywhere under the source (the schema only declares delivered
and deliveredAt with defaults false and null, and no route or socket handler
updates them); per the spec it sets delivered and deliveredAt when the
receiving connection has actively received the event, and re-marking an
already delivered message is a no-op. -/
def markDelivered (db : ChatStore) (messageId : Nat) (now : Nat) : ChatStore :=
  { db with
      msgs := db.msgs.map (fun m =>
        if m.id = messageId ∧ m.delivered = false then
          { m with delivered := true, deliveredAt := some now }
        else m) }

/-- The retention window declared on createdAt by the schema: the index
option expires 24h, in milliseconds. -/
def ttlMillis : Nat := 24 * 60 * 60 * 1000

/-- Modelled from the spec: the background retention mechanism of the store
(the TTL monitor behind the expires index option of the schema) permanently
removes every document whose createdAt lies at least the 24 hour window in
the past; a document survives exactly while now is within the window. -/
def retentionSweep (db : ChatStore) (now : Nat) : ChatStore :=
  { db with msgs := db.msgs.filter (fun m => decide (now < m.createdAt + ttlMillis)) }

/-! Helper lemmas about the history sort. -/

theorem mem_insertByCreated (a m : Msg) (l : List Msg) :
    a ∈ insertByCreated m l ↔ a = m ∨ a ∈ l := by
  induction l with
  | nil => simp [insertByCreated]
  | cons x xs ih =>
    by_cases h : m.createdAt < x.createdAt
    · simp [insertByCreated, h]
    · simp [insertByCreated, h, ih]
      tauto

theorem mem_sortByCreated (a : Msg) (l : List Msg) :
    a ∈ sortByCreated l ↔ a ∈ l := by
  induction l with
  | nil => simp [sortByCreated]
  | cons x xs ih =>
    show a ∈ insertByCreated x (sortByCreated xs) ↔ _
    rw [mem_insertByCreated]
    simp [ih]

theorem insertByCreated_append_of_lt (x m : Msg) (h : x.createdAt < m.createdAt) :
    ∀ s : List Msg, insertByCreated x (s ++ [m]) = insertByCreated x s ++ [m]
  | [] => by simp [insertByCreated, h]
  | y :: ys => by
    by_cases hxy : x.createdAt < y.createdAt
    · simp [insertByCreated, hxy]
    · simp [insertByCreated, hxy, insertByCreated_append_of_lt x m h ys]

theorem sortByCreated_append_of_lt (m : Msg) :
    ∀ l : List Msg, (∀ x ∈ l, x.createdAt < m.createdAt) →
      sortByCreated (l ++ [m]) = sortByCreated l ++ [m]
  | [], _ => rfl
  | x :: xs, h => by
    have hx : x.createdAt < m.createdAt := h x (by simp)
    have ih := sortByCreated_append_of_lt m xs (fun y hy => h y (by simp [hy]))
    show insertByCreated x (sortByCreated (xs ++ [m])) = _
    rw [ih, insertByCreated_append_of_lt x m hx]
    rfl

theorem mem_historyMsgs (x : Msg) (l : List Msg) (a b : UserId) :
    x ∈ historyMsgs l a b ↔
      x ∈ l ∧ ((x.sender = a ∧ x.receiver = b) ∨ (x.sender = b ∧ x.receiver = a)) := by
  unfold historyMsgs pairFilter
  rw [mem_sortByCreated]
  simp [List.mem_filter]

theorem historyMsgs_append_last (l : List Msg) (m : Msg) (a b : UserId)
    (hm : (m.sender = a ∧ m.receiver = b) ∨ (m.sender = b ∧ m.receiver = a))
    (hfresh : ∀ x ∈ l, x.createdAt < m.createdAt) :
    historyMsgs (l ++ [m]) a b = historyMsgs l a b ++ [m] := by
  unfold historyMsgs
  have hfilter : pairFilter a b (l ++ [m]) = pairFilter a b l ++ [m] := by
    simp [pairFilter, List.filter_append, hm]
  rw [hfilter]
  exact sortByCreated_append_of_lt m _
    (fun x hx => hfresh x (List.mem_of_mem_filter hx))

/-! Helper lemmas about the string comparison of the default array sort. -/

theorem char_eq_of_toNat_eq {a b : Char} (h : a.toNat = b.toNat) : a = b :=
  Char.ext_iff.mpr (UInt32.ext_iff.mpr h)

theorem charsLt_asymm : ∀ x y : List Char, charsLt x y = true → charsLt y x = false
  | [], [], h => by simp [charsLt] at h
  | [], _ :: _, _ => by simp [charsLt]
  | _ :: _, [], h => by simp [charsLt] at h
  | a :: as, b :: bs, h => by
    by_cases hab : a.toNat < b.toNat
    · simp [charsLt, hab, Nat.lt_asymm hab]
    · by_cases hba : b.toNat < a.toNat
      · simp [charsLt, hab, hba] at h
      · have h2 : charsLt as bs = true := by simpa [charsLt, hab, hba] using h
        simpa [charsLt, hab, hba] using charsLt_asymm as bs h2

theorem charsLt_antisymm : ∀ x y : List Char,
    charsLt x y = false → charsLt y x = false → x = y
  | [], [], _, _ => rfl
  | [], _ :: _, h, _ => by simp [charsLt] at h
  | _ :: _, [], _, h2 => by simp [charsLt] at h2
  | a :: as, b :: bs, h1, h2 => by
    by_cases hab : a.toNat < b.toNat
    · simp [charsLt, hab] at h1
    · by_cases hba : b.toNat < a.toNat
      · simp [charsLt, hba] at h2
      · have hchar : a = b :=
          char_eq_of_toNat_eq (Nat.le_antisymm (Nat.not_lt.mp hba) (Nat.not_lt.mp hab))
        have h1r : charsLt as bs = false := by simpa [charsLt, hab, hba] using h1
        have h2r : charsLt bs as = false := by simpa [charsLt, hab, hba] using h2
        rw [hchar, charsLt_antisymm as bs h1r h2r]

theorem jsLt_asymm {a b : String} (h : jsLt a b = true) : jsLt b a = false :=
  charsLt_asymm a.data b.data h

theorem string_eq_of_not_jsLt {a b : String}
    (h1 : jsLt a b = false) (h2 : jsLt b a = false) : a = b := by
  cases a with
  | mk da =>
    cases b with
    | mk db =>
      have : da = db := charsLt_antisymm da db h1 h2
      rw [this]

/-! Helper lemmas about the presence set operations. -/

theorem mem_setAdd_self (s : List UserId) (u : UserId) : u ∈ setAdd s u := by
  unfold setAdd
  by_cases h : u ∈ s
  · rwa [if_pos h]
  · rw [if_neg h]
    simp

theorem not_mem_setDelete_self (s : List UserId) (u : UserId) : u ∉ setDelete s u := by
  intro h
  rw [setDelete, List.mem_filter] at h
  simp at h

theorem mem_setDelete_of_ne (s : List UserId) (u v : UserId) (h : v ≠ u) :
    (v ∈ setDelete s u ↔ v ∈ s) := by
  rw [setDelete, List.mem_filter]
  simp [h]

/-! Helper lemmas about the per-document updates. -/

theorem markReadOne_idem (s u : UserId) (m : Msg) :
    markReadOne s u (markReadOne s u m) = markReadOne s u m := by
  by_cases h : m.sender = s ∧ m.receiver = u ∧ m.read = false
  · obtain ⟨h1, h2, h3⟩ := h
    simp [markReadOne, h1, h2, h3]
  · unfold markReadOne
    rw [if_neg h, if_neg h]

/-- The per-document update of markDelivered. -/
def markDeliveredOne (messageId : Nat) (now : Nat) (m : Msg) : Msg :=
  if m.id = messageId ∧ m.delivered = false then
    { m with delivered := true, deliveredAt := some now }
  else m

theorem markDelivered_eq_map (db : ChatStore) (messageId now : Nat) :
    (markDelivered db messageId now).msgs = db.msgs.map (markDeliveredOne messageId now) :=
  rfl

theorem markDeliveredOne_idem (messageId now now2 : Nat) (m : Msg) :
    markDeliveredOne messageId now2 (markDeliveredOne messageId now m) =
      markDeliveredOne messageId now m := by
  by_cases h : m.id = messageId ∧ m.delivered = false
  · obtain ⟨h1, h2⟩ := h
    simp [markDeliveredOne, h1, h2]
  · unfold markDeliveredOne
    rw [if_neg h, if_neg h]

/-- C7: for all user identifiers a and b, room-key(a, b) equals
room-key(b, a), and it is computed as the sorted pair joined by the dash
separator, a pure, deterministic, order-independent function; in particular
this holds for all a and b with a different from b. -/
theorem roomKey_symmetric_and_sorted_join (a b : UserId) :
    roomKey a b = roomKey b a ∧ roomKey a b = specRoomKey a b := by
  constructor
  · unfold roomKey
    by_cases hba : jsLt b a = true
    · rw [if_pos hba, if_neg (by rw [jsLt_asymm hba]; simp)]
    · have hba' : jsLt b a = false := by
        cases h : jsLt b a
        · rfl
        · exact absurd h hba
      by_cases hab : jsLt a b = true
      · rw [if_neg (by rw [hba']; simp), if_pos hab]
      · have hab' : jsLt a b = false := by
          cases h : jsLt a b
          · rfl
          · exact absurd h hab
        rw [string_eq_of_not_jsLt hab' hba']
  · by_cases hba : jsLt b a = true
    · simp [roomKey, specRoomKey, sortStrings, insertLe, joinDash, hba]
    · have hba' : jsLt b a = false := by
        cases h : jsLt b a
        · rfl
        · exact absurd h hba
      simp [roomKey, specRoomKey, sortStrings, insertLe, joinDash, hba']

/-- C8: bulk markRead (PUT /api/chat/read/:senderId) is idempotent: running
the update twice yields the same store as running it once, and re-marking
already read messages is a no-op (the update is total, never an error). -/
theorem markAllRead_idempotent (db : ChatStore) (senderId userId : UserId) :
    markAllRead (markAllRead db senderId userId) senderId userId =
      markAllRead db senderId userId := by
  unfold markAllRead
  rw [List.map_map]
  have hf : markReadOne senderId userId ∘ markReadOne senderId userId
      = markReadOne senderId userId := funext (markReadOne_idem senderId userId)
  rw [hf]

/-- C1: for a valid sender, an existing receiver and a body nonempty after
trim, POST /api/chat persists exactly one new message, equal to the input
(the body is stored trimmed, as the route and the schema specify) with
delivered false, read false and edited false, and a subsequent
GET /api/chat history call returns the previous history plus exactly that
one new entry; a body empty after trim fails with the 400 validation error
and persists nothing. -/
theorem postChat_appends_exactly_one (db : ChatStore) (users : List UserId)
    (sender receiver : UserId) (body : String) (now : Nat)
    (hmem : receiver ∈ users) (hrne : receiver ≠ "")
    (hbody : jsTrim body ≠ "")
    (hfresh : ∀ x ∈ db.msgs, x.createdAt < now) :
    (∃ m : Msg,
      postChat db users sender receiver body now =
        Except.ok ({ msgs := db.msgs ++ [m], nextId := db.nextId + 1 }, m) ∧
      m.sender = sender ∧ m.receiver = receiver ∧ m.message = jsTrim body ∧
      m.delivered = false ∧ m.read = false ∧ m.edited = false ∧
      getConversation { msgs := db.msgs ++ [m], nextId := db.nextId + 1 }
          users sender receiver =
        Except.ok (historyMsgs db.msgs sender receiver ++ [m])) ∧
    (∀ b : String, jsTrim b = "" →
      postChat db users sender receiver b now =
        Except.error ⟨400, "Receiver and message are required"⟩) := by
  have hb0 : body ≠ "" := by
    intro e
    apply hbody
    rw [e]
    decide
  have hcond : ¬(receiver = "" ∨ body = "" ∨ jsTrim body = "") := by
    push_neg
    exact ⟨hrne, hb0, hbody⟩
  constructor
  · refine ⟨Msg.mk db.nextId sender receiver (jsTrim body) none false none
        false none false now, ?_, rfl, rfl, rfl, rfl, rfl, rfl, ?_⟩
    · unfold postChat
      rw [if_neg hcond, if_pos hmem]
    · unfold getConversation
      rw [if_pos hmem]
      rw [historyMsgs_append_last db.msgs _ sender receiver (Or.inl ⟨rfl, rfl⟩) hfresh]
  · intro b hb
    unfold postChat
    rw [if_pos (Or.inr (Or.inr hb))]

/-- C4: for an existing message and a new body nonempty after trim, the
edit route succeeds exactly when the requester is the original sender and
at most five minutes have elapsed since creation; a foreign requester gets
the 403 authorization error, an exceeded window gets the 400 policy error,
an empty body gets the 400 validation error, and the three error responses
are pairwise distinguishable. -/
theorem editMessage_taxonomy (db : ChatStore) (uid : UserId) (mid : Nat)
    (body : String) (now : Nat) (msg : Msg)
    (hfind : db.msgs.find? (fun m => m.id == mid) = some msg)
    (hbody : jsTrim body ≠ "") :
    ((∃ out, editMessage db uid mid body now = Except.ok out) ↔
      (uid = msg.sender ∧ now - msg.createdAt ≤ 5 * 60 * 1000)) ∧
    (msg.sender ≠ uid →
      editMessage db uid mid body now = Except.error ⟨403, "Not authorized"⟩) ∧
    (msg.sender = uid → now - msg.createdAt > 5 * 60 * 1000 →
      editMessage db uid mid body now =
        Except.error ⟨400, "Cannot edit messages older than 5 minutes"⟩) ∧
    (∀ b, jsTrim b = "" →
      editMessage db uid mid b now = Except.error ⟨400, "Message cannot be empty"⟩) ∧
    ((⟨403, "Not authorized"⟩ : ApiError) ≠
        ⟨400, "Cannot edit messages older than 5 minutes"⟩) ∧
    ((⟨403, "Not authorized"⟩ : ApiError) ≠ ⟨400, "Message cannot be empty"⟩) ∧
    ((⟨400, "Cannot edit messages older than 5 minutes"⟩ : ApiError) ≠
        ⟨400, "Message cannot be empty"⟩) := by
  have hb0 : body ≠ "" := by
    intro e
    apply hbody
    rw [e]
    decide
  have hcond : ¬(body = "" ∨ jsTrim body = "") := by
    push_neg
    exact ⟨hb0, hbody⟩
  have hE : editMessage db uid mid body now =
      (if msg.sender ≠ uid then Except.error ⟨403, "Not authorized"⟩
       else if now - msg.createdAt > 5 * 60 * 1000 then
         Except.error ⟨400, "Cannot edit messages older than 5 minutes"⟩
       else
         Except.ok
           ({ db with msgs := db.msgs.map (fun m =>
                if m.id = mid then { msg with message := jsTrim body, edited := true }
                else m) },
            { msg with message := jsTrim body, edited := true })) := by
    unfold editMessage
    rw [if_neg hcond, hfind]
  refine ⟨?_, ?_, ?_, ?_, by decide, by decide, by decide⟩
  · constructor
    · rintro ⟨out, hout⟩
      rw [hE] at hout
      by_cases hs : msg.sender = uid
      · rw [if_neg (fun hne => hne hs)] at hout
        by_cases ht : now - msg.createdAt > 5 * 60 * 1000
        · rw [if_pos ht] at hout
          exact Except.noConfusion hout
        · exact ⟨hs.symm, Nat.le_of_not_lt ht⟩
      · rw [if_pos hs] at hout
        exact Except.noConfusion hout
    · rintro ⟨hs, ht⟩
      rw [hE, if_neg (fun hne => hne hs.symm), if_neg (Nat.not_lt.mpr ht)]
      exact ⟨_, rfl⟩
  · intro hs
    rw [hE, if_pos hs]
  · intro hs ht
    rw [hE, if_neg (fun hne => hne hs), if_pos ht]
  · intro b hb
    unfold editMessage
    rw [if_pos (Or.inr hb)]

/-- C10: a successful edit changes only the body (set to the trimmed new
body) and the edited flag of the targeted message; its sender, receiver,
createdAt, read, readAt, replyTo, delivered, deliveredAt and id are
unchanged, the id counter is unchanged, and every other message of the
store is untouched. -/
theorem editMessage_frame (db : ChatStore) (uid : UserId) (mid : Nat)
    (body : String) (now : Nat) (db2 : ChatStore) (m2 : Msg)
    (h : editMessage db uid mid body now = Except.ok (db2, m2)) :
    ∃ msg, db.msgs.find? (fun m => m.id == mid) = some msg ∧
      m2 = { msg with message := jsTrim body, edited := true } ∧
      m2.message = jsTrim body ∧ m2.edited = true ∧
      m2.sender = msg.sender ∧ m2.receiver = msg.receiver ∧
      m2.createdAt = msg.createdAt ∧ m2.read = msg.read ∧
      m2.readAt = msg.readAt ∧ m2.replyTo = msg.replyTo ∧
      m2.delivered = msg.delivered ∧ m2.deliveredAt = msg.deliveredAt ∧
      m2.id = msg.id ∧
      db2.nextId = db.nextId ∧
      db2.msgs = db.msgs.map (fun m => if m.id = mid then m2 else m) ∧
      (∀ m ∈ db.msgs, m.id ≠ mid → m ∈ db2.msgs) := by
  unfold editMessage at h
  by_cases hc : body = "" ∨ jsTrim body = ""
  · rw [if_pos hc] at h
    exact Except.noConfusion h
  · rw [if_neg hc] at h
    split at h
    · exact Except.noConfusion h
    · rename_i msg hfind
      by_cases hs : msg.sender ≠ uid
      · rw [if_pos hs] at h
        exact Except.noConfusion h
      · rw [if_neg hs] at h
        by_cases ht : now - msg.createdAt > 5 * 60 * 1000
        · rw [if_pos ht] at h
          exact Except.noConfusion h
        · rw [if_neg ht] at h
          simp only [Except.ok.injEq, Prod.mk.injEq] at h
          obtain ⟨h1, h2⟩ := h
          subst h1
          subst h2
          refine ⟨msg, hfind, rfl, rfl, rfl, rfl, rfl, rfl, rfl, rfl, rfl, rfl,
            rfl, rfl, rfl, rfl, ?_⟩
          intro m hm hne
          have hmem :
              (if m.id = mid then { msg with message := jsTrim body, edited := true }
               else m) ∈
                db.msgs.map (fun m =>
                  if m.id = mid then { msg with message := jsTrim body, edited := true }
                  else m) :=
            List.mem_map_of_mem _ hm
          rwa [if_neg hne] at hmem

/-- C2: in the send-message handler the awaited save happens before the
new-message emit: every new-message emit in the action trace is preceded by
the persist of the same message, that message is in the resulting store and
is visible in a subsequent history query; and when the save fails, the state
is unchanged and nothing at all is emitted. -/
theorem sendMessage_persist_before_broadcast (st : ServerState)
    (senderId receiverId : UserId) (message : String) (replyTo : Option Nat)
    (now : Nat) (saveOk : Bool) (st2 : ServerState) (tr : List Action)
    (hrun : sendMessage st senderId receiverId message replyTo now saveOk = (st2, tr)) :
    (∀ (i : Nat) (r : String) (m : Msg),
        tr[i]? = some (Action.emit (Event.newMessage r m)) →
          (∃ j, j < i ∧ tr[j]? = some (Action.persist m)) ∧
          m ∈ st2.db.msgs ∧
          m ∈ historyMsgs st2.db.msgs senderId receiverId) ∧
    (saveOk = false → st2 = st ∧ tr = []) := by
  cases saveOk with
  | false =>
    simp only [sendMessage, Bool.false_eq_true, if_false, Prod.mk.injEq] at hrun
    obtain ⟨h1, h2⟩ := hrun
    subst h1
    subst h2
    refine ⟨?_, fun _ => ⟨rfl, rfl⟩⟩
    intro i r m hi
    simp at hi
  | true =>
    simp only [sendMessage, if_true, Prod.mk.injEq] at hrun
    obtain ⟨h1, h2⟩ := hrun
    subst h1
    subst h2
    refine ⟨?_, fun hfalse => by simp at hfalse⟩
    intro i r m hi
    match i with
    | 0 => simp at hi
    | 1 =>
      simp only [List.getElem?_cons_succ, List.getElem?_cons_zero, Option.some.injEq,
        Action.emit.injEq, Event.newMessage.injEq] at hi
      obtain ⟨hr, hm⟩ := hi
      subst hm
      refine ⟨⟨0, by omega, by simp⟩, by simp, ?_⟩
      rw [mem_historyMsgs]
      exact ⟨by simp, Or.inl ⟨rfl, rfl⟩⟩
    | n + 2 => simp at hi

/-- C3: the socket middleware authenticates a connection before the
connection handler runs; an attempt with a missing or invalid credential
terminates with a distinguishable authentication error and creates no state
at all (the server state is unchanged, so no presence entry, no broadcast
and no room membership exists for it), while a verified credential binds
the decoded user id and only then marks presence. -/
theorem connect_failed_auth_no_state (st : ServerState) (cred : Credential) (sid : Nat)
    (hfail : cred = Credential.missing ∨ ∃ t, cred = Credential.invalid t) :
    (∃ e : AuthError, connect st cred sid = (st, [], some e) ∧
      (cred = Credential.missing → e = AuthError.noToken) ∧
      (∀ t, cred = Credential.invalid t → e = AuthError.invalidToken)) ∧
    (connect st cred sid).1 = st ∧
    (connect st cred sid).2.1 = [] ∧
    AuthError.noToken ≠ AuthError.invalidToken ∧
    (∀ t u, connect st (Credential.valid t u) sid =
      ({ st with onlineUsers := setAdd st.onlineUsers u,
                 sockets := st.sockets ++ [⟨sid, u, [u]⟩] },
       [Event.userOnline u], none)) := by
  rcases hfail with hmiss | ⟨t, hinv⟩
  · subst hmiss
    exact ⟨⟨AuthError.noToken, rfl, fun _ => rfl, fun t ht => Credential.noConfusion ht⟩,
      rfl, rfl, by decide, fun _ _ => rfl⟩
  · subst hinv
    exact ⟨⟨AuthError.invalidToken, rfl, fun hc => Credential.noConfusion hc,
      fun _ _ => rfl⟩, rfl, rfl, by decide, fun _ _ => rfl⟩

/-- C5: a persisted message starts with delivered false and deliveredAt
null (persistence alone is not delivery), markDelivered sets delivered and
deliveredAt for the targeted message upon active receipt, and re-marking an
already delivered message is a no-op, not an error. -/
theorem markDelivered_on_receipt (db : ChatStore) (mid now now2 : Nat) (m : Msg)
    (hm : m ∈ db.msgs) (hid : m.id = mid) (hdel : m.delivered = false) :
    { m with delivered := true, deliveredAt := some now } ∈ (markDelivered db mid now).msgs ∧
    (∀ x ∈ (markDelivered db mid now).msgs, x.id = mid → x.delivered = true) ∧
    markDelivered (markDelivered db mid now) mid now2 = markDelivered db mid now ∧
    (∀ (st : ServerState) (s r : UserId) (body : String) (rt : Option Nat)
        (t : Nat) (ok : Bool) (x : Msg),
      Action.persist x ∈ (sendMessage st s r body rt t ok).2 →
        x.delivered = false ∧ x.deliveredAt = none) := by
  refine ⟨?_, ?_, ?_, ?_⟩
  · rw [markDelivered_eq_map]
    have := List.mem_map_of_mem (markDeliveredOne mid now) hm
    rwa [markDeliveredOne, if_pos ⟨hid, hdel⟩] at this
  · intro x hx hxid
    rw [markDelivered_eq_map, List.mem_map] at hx
    obtain ⟨y, hy, hxy⟩ := hx
    by_cases hcond : y.id = mid ∧ y.delivered = false
    · rw [markDeliveredOne, if_pos hcond] at hxy
      rw [← hxy]
    · rw [markDeliveredOne, if_neg hcond] at hxy
      subst hxy
      cases hydel : y.delivered with
      | false => exact absurd ⟨hxid, hydel⟩ hcond
      | true => rfl
  · have hf : markDeliveredOne mid now2 ∘ markDeliveredOne mid now
        = markDeliveredOne mid now := funext (markDeliveredOne_idem mid now now2)
    show ChatStore.mk
        ((db.msgs.map (markDeliveredOne mid now)).map (markDeliveredOne mid now2))
        db.nextId =
      ChatStore.mk (db.msgs.map (markDeliveredOne mid now)) db.nextId
    rw [List.map_map, hf]
  · intro st s r body rt t ok x hx
    cases ok with
    | false => simp [sendMessage] at hx
    | true =>
      simp only [sendMessage, if_true, List.mem_cons, List.not_mem_nil, or_false] at hx
      rcases hx with hx | hx
      · rw [Action.persist.injEq] at hx
        subst hx
        exact ⟨rfl, rfl⟩
      · exact Action.noConfusion hx

/-- A server state with two simultaneously open connections of the same
user, as produced by two successful connects of user u1. -/
def twoTabState : ServerState :=
  { db := { msgs := [], nextId := 0 },
    onlineUsers := ["u1"],
    sockets := [⟨1, "u1", ["u1"]⟩, ⟨2, "u1", ["u1"]⟩] }

/-- C6 counterexample: with two open connections of user u1, closing only
connection 1 leaves connection 2 open, yet the user is dropped from the
online set and a user-offline event is broadcast — refuting the claim that
presence holds exactly while at least one connection is open and that no
user-offline event is emitted in this situation. -/
theorem presence_multidevice_counterexample :
    (∃ s ∈ (disconnect twoTabState 1).1.sockets, s.userId = "u1") ∧
    isOnline (disconnect twoTabState 1).1 "u1" = false ∧
    (disconnect twoTabState 1).2 = [Event.userOffline "u1"] := by decide

/-- C6 amended: the presence tracker is a strict set reflecting only the
most recent mark: a successful connect marks the user online, and the
disconnect of any one of the user's connections unconditionally deletes the
user from the online set and broadcasts user-offline, even when other
connections of the same user remain open; other users are unaffected and
the message store is untouched. -/
theorem disconnect_unconditional_offline (st : ServerState) (sid : Nat) (s : Socket)
    (hfind : st.sockets.find? (fun t => t.sid == sid) = some s) :
    isOnline (disconnect st sid).1 s.userId = false ∧
    (disconnect st sid).2 = [Event.userOffline s.userId] ∧
    (disconnect st sid).1.onlineUsers = setDelete st.onlineUsers s.userId ∧
    (disconnect st sid).1.sockets = st.sockets.filter (fun t => decide (t.sid ≠ sid)) ∧
    (disconnect st sid).1.db = st.db ∧
    (∀ u : UserId, u ≠ s.userId →
      isOnline (disconnect st sid).1 u = isOnline st u) ∧
    (∀ (cred : Credential) (u : UserId) (sid2 : Nat),
      authenticate cred = Except.ok u →
        isOnline (connect st cred sid2).1 u = true) := by
  have hdis : disconnect st sid =
      ({ st with
           sockets := st.sockets.filter (fun t => decide (t.sid ≠ sid)),
           onlineUsers := setDelete st.onlineUsers s.userId },
       [Event.userOffline s.userId]) := by
    unfold disconnect
    rw [hfind]
  rw [hdis]
  refine ⟨?_, rfl, rfl, rfl, rfl, ?_, ?_⟩
  · simp only [isOnline, decide_eq_false_iff_not]
    exact not_mem_setDelete_self st.onlineUsers s.userId
  · intro u hu
    simp only [isOnline]
    rw [decide_eq_decide]
    exact mem_setDelete_of_ne st.onlineUsers s.userId u hu
  · intro cred u sid2 hauth
    cases cred with
    | missing => exact Except.noConfusion hauth
    | invalid t => exact Except.noConfusion hauth
    | valid t u2 =>
      have hu2 : u2 = u := Except.ok.inj hauth
      subst hu2
      simp only [connect, authenticate, isOnline, decide_eq_true_eq]
      exact mem_setAdd_self st.onlineUsers u2

/-- C9: per the 24 hour expires index on createdAt, a message survives the
retention sweep of the store exactly while the current time is within the
fixed 24 hour window from its creation; a message created more than 24
hours ago is removed and is absent from every subsequent history query. -/
theorem retention_expiry (db : ChatStore) (now : Nat) (m : Msg) :
    (m ∈ (retentionSweep db now).msgs ↔ m ∈ db.msgs ∧ now < m.createdAt + ttlMillis) ∧
    (m.createdAt + ttlMillis ≤ now →
      ∀ a b : UserId, m ∉ historyMsgs (retentionSweep db now).msgs a b) := by
  have hmem : m ∈ (retentionSweep db now).msgs ↔
      m ∈ db.msgs ∧ now < m.createdAt + ttlMillis := by
    simp [retentionSweep, List.mem_filter]
  refine ⟨hmem, ?_⟩
  intro hold a b hin
  rw [mem_historyMsgs] at hin
  have := (hmem.mp hin.1).2
  omega

/-! Concrete stores used by the witnesses. -/

/-- A concrete message from u1 to u2, created at time 0. -/
def wMsg : Msg := ⟨0, "u1", "u2", "hi", none, false, none, false, none, false, 0⟩

/-- A concrete store holding exactly wMsg. -/
def wDb : ChatStore := ⟨[wMsg], 1⟩

/-- wMsg after a successful edit to the trimmed body yo. -/
def wMsg2 : Msg := ⟨0, "u1", "u2", "yo", none, false, none, false, none, true, 0⟩

/-- The store after the successful edit. -/
def wDb2 : ChatStore := ⟨[wMsg2], 1⟩

theorem postChat_appends_exactly_one_witness :
    (∃ m : Msg,
      postChat ⟨[], 0⟩ ["u1", "u2"] "u1" "u2" "  hi  " 5 =
        Except.ok ({ msgs := [m], nextId := 1 }, m) ∧
      m.sender = "u1" ∧ m.receiver = "u2" ∧ m.message = jsTrim "  hi  " ∧
      m.delivered = false ∧ m.read = false ∧ m.edited = false ∧
      getConversation { msgs := [m], nextId := 1 } ["u1", "u2"] "u1" "u2" =
        Except.ok (historyMsgs [] "u1" "u2" ++ [m])) ∧
    (∀ b : String, jsTrim b = "" →
      postChat ⟨[], 0⟩ ["u1", "u2"] "u1" "u2" b 5 =
        Except.error ⟨400, "Receiver and message are required"⟩) :=
  postChat_appends_exactly_one ⟨[], 0⟩ ["u1", "u2"] "u1" "u2" "  hi  " 5
    (by decide) (by decide) (by decide) (by intro x hx; exact absurd hx (List.not_mem_nil x))

theorem sendMessage_persist_before_broadcast_witness :
    (∀ (i : Nat) (r : String) (m : Msg),
        ((sendMessage ⟨⟨[], 0⟩, [], []⟩ "u1" "u2" "hi" none 7 true).2)[i]? =
          some (Action.emit (Event.newMessage r m)) →
          (∃ j, j < i ∧
            ((sendMessage ⟨⟨[], 0⟩, [], []⟩ "u1" "u2" "hi" none 7 true).2)[j]? =
              some (Action.persist m)) ∧
          m ∈ (sendMessage ⟨⟨[], 0⟩, [], []⟩ "u1" "u2" "hi" none 7 true).1.db.msgs ∧
          m ∈ historyMsgs
              (sendMessage ⟨⟨[], 0⟩, [], []⟩ "u1" "u2" "hi" none 7 true).1.db.msgs
              "u1" "u2") ∧
    (true = false →
      (sendMessage ⟨⟨[], 0⟩, [], []⟩ "u1" "u2" "hi" none 7 true).1 = ⟨⟨[], 0⟩, [], []⟩ ∧
      (sendMessage ⟨⟨[], 0⟩, [], []⟩ "u1" "u2" "hi" none 7 true).2 = []) :=
  sendMessage_persist_before_broadcast ⟨⟨[], 0⟩, [], []⟩ "u1" "u2" "hi" none 7 true _ _ rfl

theorem connect_failed_auth_no_state_witness :
    (∃ e : AuthError,
      connect ⟨⟨[], 0⟩, [], []⟩ Credential.missing 1 = (⟨⟨[], 0⟩, [], []⟩, [], some e) ∧
      (Credential.missing = Credential.missing → e = AuthError.noToken) ∧
      (∀ t, Credential.missing = Credential.invalid t → e = AuthError.invalidToken)) ∧
    (connect ⟨⟨[], 0⟩, [], []⟩ Credential.missing 1).1 = ⟨⟨[], 0⟩, [], []⟩ ∧
    (connect ⟨⟨[], 0⟩, [], []⟩ Credential.missing 1).2.1 = [] ∧
    AuthError.noToken ≠ AuthError.invalidToken ∧
    (∀ t u, connect ⟨⟨[], 0⟩, [], []⟩ (Credential.valid t u) 1 =
      (ServerState.mk ⟨[], 0⟩ (setAdd [] u) [⟨1, u, [u]⟩], [Event.userOnline u], none)) :=
  connect_failed_auth_no_state ⟨⟨[], 0⟩, [], []⟩ Credential.missing 1 (Or.inl rfl)

theorem editMessage_taxonomy_witness :
    ((∃ out, editMessage wDb "u1" 0 " yo " 1000 = Except.ok out) ↔
      ("u1" = wMsg.sender ∧ 1000 - wMsg.createdAt ≤ 5 * 60 * 1000)) ∧
    (wMsg.sender ≠ "u1" →
      editMessage wDb "u1" 0 " yo " 1000 = Except.error ⟨403, "Not authorized"⟩) ∧
    (wMsg.sender = "u1" → 1000 - wMsg.createdAt > 5 * 60 * 1000 →
      editMessage wDb "u1" 0 " yo " 1000 =
        Except.error ⟨400, "Cannot edit messages older than 5 minutes"⟩) ∧
    (∀ b, jsTrim b = "" →
      editMessage wDb "u1" 0 b 1000 = Except.error ⟨400, "Message cannot be empty"⟩) ∧
    ((⟨403, "Not authorized"⟩ : ApiError) ≠
        ⟨400, "Cannot edit messages older than 5 minutes"⟩) ∧
    ((⟨403, "Not authorized"⟩ : ApiError) ≠ ⟨400, "Message cannot be empty"⟩) ∧
    ((⟨400, "Cannot edit messages older than 5 minutes"⟩ : ApiError) ≠
        ⟨400, "Message cannot be empty"⟩) :=
  editMessage_taxonomy wDb "u1" 0 " yo " 1000 wMsg rfl (by decide)

theorem markDelivered_on_receipt_witness :
    { wMsg with delivered := true, deliveredAt := some 50 } ∈ (markDelivered wDb 0 50).msgs ∧
    (∀ x ∈ (markDelivered wDb 0 50).msgs, x.id = 0 → x.delivered = true) ∧
    markDelivered (markDelivered wDb 0 50) 0 60 = markDelivered wDb 0 50 ∧
    (∀ (st : ServerState) (s r : UserId) (body : String) (rt : Option Nat)
        (t : Nat) (ok : Bool) (x : Msg),
      Action.persist x ∈ (sendMessage st s r body rt t ok).2 →
        x.delivered = false ∧ x.deliveredAt = none) :=
  markDelivered_on_receipt wDb 0 50 60 wMsg (by decide) rfl rfl

theorem disconnect_unconditional_offline_witness :
    isOnline (disconnect twoTabState 1).1 "u1" = false ∧
    (disconnect twoTabState 1).2 = [Event.userOffline "u1"] ∧
    (disconnect twoTabState 1).1.onlineUsers = setDelete twoTabState.onlineUsers "u1" ∧
    (disconnect twoTabState 1).1.sockets =
      twoTabState.sockets.filter (fun t => decide (t.sid ≠ 1)) ∧
    (disconnect twoTabState 1).1.db = twoTabState.db ∧
    (∀ u : UserId, u ≠ "u1" →
      isOnline (disconnect twoTabState 1).1 u = isOnline twoTabState u) ∧
    (∀ (cred : Credential) (u : UserId) (sid2 : Nat),
      authenticate cred = Except.ok u →
        isOnline (connect twoTabState cred sid2).1 u = true) :=
  disconnect_unconditional_offline twoTabState 1 ⟨1, "u1", ["u1"]⟩ rfl

theorem retention_expiry_witness :
    (wMsg ∈ (retentionSweep wDb ttlMillis).msgs ↔
      wMsg ∈ wDb.msgs ∧ ttlMillis < wMsg.createdAt + ttlMillis) ∧
    (wMsg.createdAt + ttlMillis ≤ ttlMillis →
      ∀ a b : UserId, wMsg ∉ historyMsgs (retentionSweep wDb ttlMillis).msgs a b) :=
  retention_expiry wDb ttlMillis wMsg

theorem editMessage_frame_witness :
    ∃ msg, wDb.msgs.find? (fun m => m.id == 0) = some msg ∧
      wMsg2 = { msg with message := jsTrim " yo ", edited := true } ∧
      wMsg2.message = jsTrim " yo " ∧ wMsg2.edited = true ∧
      wMsg2.sender = msg.sender ∧ wMsg2.receiver = msg.receiver ∧
      wMsg2.createdAt = msg.createdAt ∧ wMsg2.read = msg.read ∧
      wMsg2.readAt = msg.readAt ∧ wMsg2.replyTo = msg.replyTo ∧
      wMsg2.delivered = msg.delivered ∧ wMsg2.deliveredAt = msg.deliveredAt ∧
      wMsg2.id = msg.id ∧
      wDb2.nextId = wDb.nextId ∧
      wDb2.msgs = wDb.msgs.map (fun m => if m.id = 0 then wMsg2 else m) ∧
      (∀ m ∈ wDb.msgs, m.id ≠ 0 → m ∈ wDb2.msgs) :=
  editMessage_frame wDb "u1" 0 " yo " 1000 wDb2 wMsg2 rfl

end HertChat
